import Mathlib

/-!
Shallow embedding of the "immutability" before-upload worker (worker.ts):
the dynamic configuration parsing done by the `Config` class, scope
resolution over JPDs/repos/paths, the AQL existence filter built by
`findInstance`, the federated duplicate search with its first-match
short-circuit, and the final upload-gating decision.

JavaScript strings are modelled through their character lists
(`String.data`); JSON runtime values through the `Json` inductive;
`undefined` through `Option`; a thrown JS exception through `Except Unit`.
-/

namespace UploadBlocker

/-- Runtime JSON values, as `JSON.parse` produces them (numbers as
integers; no `NaN` arises from the worker's config handling). -/
inductive Json where
  | null
  | bool (b : Bool)
  | num (n : Int)
  | str (s : String)
  | arr (elems : List Json)
  | obj (fields : List (String × Json))

/-- JavaScript truthiness of a JSON value. -/
def Json.truthy : Json → Bool
  | .null => false
  | .bool b => b
  | .num n => n != 0
  | .str s => s != ""
  | .arr _ => true
  | .obj _ => true

/-- Property lookup in a JS object: a later duplicate key overwrites an
earlier one, as in `JSON.parse`. -/
def jsLookup (k : String) : List (String × Json) → Option Json
  | [] => none
  | (k₁, v) :: rest =>
      match jsLookup k rest with
      | some r => some r
      | none => if k₁ = k then some v else none

/-- Property access `j.k` as the `Config` constructor performs it: a
`TypeError` on `null` (modelled as `Except.error`), `undefined` (`none`)
on primitives and arrays. -/
def jsGet : Json → String → Except Unit (Option Json)
  | .null, _ => .error ()
  | .obj fields, k => .ok (jsLookup k fields)
  | _, _ => .ok none

/-- A normalized repo entry as the `Config` constructor stores it
(worker.ts:195-202): `{ name: repo.name, paths: repo.paths }`, both taken
verbatim from the raw JSON (`paths` is `none` when absent). -/
structure DynRepoConfig where
  name : Json
  paths : Option Json

structure DynJPDConfig where
  url : Json
  repos : List DynRepoConfig

/-- What the `Config` constructor produces: `jpds` plus the raw `action`
value (`none` when the parsed JSON has no `action` property). -/
structure DynConfig where
  jpds : List DynJPDConfig
  action : Option Json

/-- Normalization of one raw repo entry (worker.ts:195-202): a bare string
becomes `{name}`; an object with a truthy `name` keeps `name` and `paths`;
`null` throws (`typeof null` is `'object'`, so `repo.name` is evaluated);
anything else maps to `null` and is filtered out. -/
def normRepo : Json → Except Unit (Option DynRepoConfig)
  | .str s => .ok (some ⟨.str s, none⟩)
  | .null => .error ()
  | .obj fields =>
      match jsLookup "name" fields with
      | some n =>
          if n.truthy then .ok (some ⟨n, jsLookup "paths" fields⟩)
          else .ok none
      | none => .ok none
  | .arr _ => .ok none
  | _ => .ok none

/-- Normalization of one raw target entry (worker.ts:191-206): kept only
when it is an object with a truthy `url` AND an array `repos`; `null`
throws; everything else maps to `null` and is filtered out. -/
def normJPD : Json → Except Unit (Option DynJPDConfig)
  | .null => .error ()
  | .obj fields =>
      match jsLookup "url" fields with
      | some u =>
          if u.truthy then
            match jsLookup "repos" fields with
            | some (.arr entries) => do
                let l ← entries.mapM normRepo
                .ok (some ⟨u, l.filterMap id⟩)
            | _ => .ok none
          else .ok none
      | none => .ok none
  | .arr _ => .ok none
  | _ => .ok none

/-- The body of the `Config` constructor's `try` block on a successfully
parsed JSON value (worker.ts:188-210); an `error` is a thrown JS
exception, caught by the surrounding `catch`. -/
def parseConfigJson (rawJSON : Json) : Except Unit DynConfig := do
  let jpdsField ← jsGet rawJSON "jpds"
  let jpds ←
    match jpdsField with
    | some (.arr entries) => do
        let l ← entries.mapM normJPD
        pure (l.filterMap id)
    | _ => pure ([] : List DynJPDConfig)
  let actionField ← jsGet rawJSON "action"
  pure ⟨jpds, actionField⟩

/-- The raw configuration text as the constructor distinguishes it: falsy
(empty), text `JSON.parse` throws on, or text parsing to a JSON value. -/
inductive RawConfigText where
  | empty
  | unparsable
  | parsed (json : Json)

/-- The default the constructor falls back to: empty target list and
`action = 'warn'`. -/
def defaultDynConfig : DynConfig := ⟨[], some (.str "warn")⟩

/-- The `Config` constructor (worker.ts:185-222): empty input and any
thrown exception (unparsable JSON, or a `null` entry evaluated during
normalization) are recovered locally into the default config. -/
def parseConfig : RawConfigText → DynConfig
  | .empty => defaultDynConfig
  | .unparsable => defaultDynConfig
  | .parsed j =>
      match parseConfigJson j with
      | .ok c => c
      | .error _ => defaultDynConfig

/-- The `RepoConfig` interface of worker.ts (typed view used by the
handler's pipeline). -/
structure RepoConfig where
  name : String
  paths : Option (List String)
deriving DecidableEq

/-- The `JPDConfig` interface of worker.ts. -/
structure JPDConfig where
  url : String
  repos : List RepoConfig
deriving DecidableEq

/-- The typed view of a parsed configuration the handler consumes
(`config.getJPDs()` and `config.action`); `action` stays a raw JSON value
(`none` = `undefined`) since the decision `switch` compares it against
string literals. -/
structure Config where
  jpds : List JPDConfig
  action : Option Json

/-- The upload identity `data.metadata.repoPath`. -/
structure RepoPath where
  key : String
  path : String
deriving DecidableEq

/-- JS `String.prototype.split` on a single-character separator, on the
character list of the string. -/
def splitChars (sep : Char) : List Char → List (List Char)
  | [] => [[]]
  | c :: cs =>
      let rest := splitChars sep cs
      if c = sep then [] :: rest
      else
        match rest with
        | r :: rs => (c :: r) :: rs
        | [] => [[c]]

/-- JS `s.split('/')`. -/
def jsSplitSlash (s : String) : List String :=
  (splitChars '/' s.data).map String.mk

/-- JS `s.startsWith(p)`. -/
def jsStartsWith (s p : String) : Bool :=
  p.data.isPrefixOf s.data

/-- JS `s.endsWith(p)`. -/
def jsEndsWith (s p : String) : Bool :=
  p.data.isSuffixOf s.data

/-- worker.ts `getFileNameFromPath` (lines 156-160): `segments.pop() || ''`
on the `/`-split of the path; falsy input short-circuits to `""`. -/
def getFileNameFromPath (fullPath : String) : String :=
  if fullPath = "" then ""
  else ((jsSplitSlash fullPath).getLast?).getD ""

/-- worker.ts `getDirectoryPathFromPath` (lines 162-169): drop the last
segment and re-join with `/`; at most one segment yields `""`. -/
def getDirectoryPathFromPath (fullPath : String) : String :=
  if fullPath = "" then ""
  else
    let segments := jsSplitSlash fullPath
    if segments.length ≤ 1 then ""
    else String.intercalate "/" segments.dropLast

/-- The path-scope test of worker.ts:49-51: the upload directory equals a
configured root, or starts with the root extended to a `/` boundary (a
root already ending in `/` is used as the prefix unchanged). -/
def matchesPaths (paths : List String) (uploadDir : String) : Bool :=
  paths.any fun configPath =>
    decide (uploadDir = configPath)
      || jsStartsWith uploadDir
          (if jsEndsWith configPath "/" then configPath else configPath ++ "/")

/-- A `{ jpd, repoConfig? }` pair the handler pushes into `relevantJPDs`. -/
structure ScopeMatch where
  jpd : JPDConfig
  repoConfig : Option RepoConfig
deriving DecidableEq

/-- The per-repo relevance test (worker.ts:47-59): with a non-empty
`paths` array the upload directory must match; otherwise the repo is
always relevant. -/
def scopeForRepo (jpd : JPDConfig) (uploadDir : String) (rc : RepoConfig) : Option ScopeMatch :=
  match rc.paths with
  | some (p :: ps) =>
      if matchesPaths (p :: ps) uploadDir then some ⟨jpd, some rc⟩ else none
  | _ => some ⟨jpd, some rc⟩

/-- The per-JPD relevance test (worker.ts:41-60): an empty (or missing)
repo list makes the whole JPD relevant with no repo scope. -/
def scopesForJPD (jpd : JPDConfig) (uploadDir : String) : List ScopeMatch :=
  if jpd.repos = [] then [⟨jpd, none⟩]
  else jpd.repos.filterMap (scopeForRepo jpd uploadDir)

/-- The `relevantJPDs` computation (worker.ts:40-60), in config order. -/
def resolveScopes (config : Config) (uploadDir : String) : List ScopeMatch :=
  config.jpds.flatMap fun jpd => scopesForJPD jpd uploadDir

/-- One clause of the structured AQL `$and` filter `findInstance` builds
(worker.ts:300-332): `repoEq r` is `{"repo": r}`, `repoOr` the `$or` of
such clauses, `pathEq p` is `{"path": p}`, `pathMatch pat` is
`{"path": {"$match": pat}}`, `pathMatchOr` their `$or`, and
`nameMatch pat` is `{"name": {"$match": pat}}`. -/
inductive Criterion where
  | repoEq (r : String)
  | repoOr (rs : List String)
  | pathEq (p : String)
  | pathMatch (pat : String)
  | pathMatchOr (pats : List String)
  | nameMatch (pat : String)
deriving DecidableEq

/-- Repository criteria (worker.ts:303-310): none at all when
`targetRepos` is empty — "no repo filter, search all repos". -/
def repoCriteria (targetRepos : List String) : List Criterion :=
  match targetRepos with
  | [] => []
  | [r] => [.repoEq r]
  | rs => [.repoOr rs]

/-- Path criteria (worker.ts:313-322): `$match` clauses `p ++ "*"` for
explicit search paths, else the exact directory, `"."` when it is empty. -/
def pathCriteria (filePath : String) (pathsToSearch : Option (List String)) : List Criterion :=
  match pathsToSearch with
  | some [p] => [.pathMatch (p ++ "*")]
  | some (p :: q :: rest) => [.pathMatchOr ((p :: q :: rest).map (· ++ "*"))]
  | _ => [.pathEq (if filePath = "" then "." else filePath)]

/-- Name criterion (worker.ts:325-330): an empty file name falls back to
the wildcard `"*"`. -/
def nameCriteria (fileName : String) : List Criterion :=
  if fileName = "" then [.nameMatch "*"] else [.nameMatch fileName]

/-- The criteria list `findInstance` pushes, in source order. -/
def buildCriteria (fileName filePath : String) (targetRepos : List String)
    (pathsToSearch : Option (List String)) : List Criterion :=
  repoCriteria targetRepos ++ pathCriteria filePath pathsToSearch ++ nameCriteria fileName

/-- The structured existence filter: `$and` criteria plus `.limit(limit)`
when `limit > 0`. -/
structure AqlFilter where
  criteria : List Criterion
  limit : Option Nat
deriving DecidableEq

/-- The filter `findInstance` submits for given arguments
(worker.ts:299-339). -/
def findInstanceFilter (fileName filePath : String) (targetRepos : List String)
    (limit : Nat) (pathsToSearch : Option (List String)) : AqlFilter :=
  ⟨buildCriteria fileName filePath targetRepos pathsToSearch,
   if 0 < limit then some limit else none⟩

/-- `targetRepos` at the call site (worker.ts:91): the scope's repo name,
or the empty list — "search all repos" — when the match has no repo
scope. -/
def scopeRepos (sm : ScopeMatch) : List String :=
  match sm.repoConfig with
  | some rc => [rc.name]
  | none => []

/-- `pathsToSearch` at the call site (worker.ts:92). -/
def scopePaths (sm : ScopeMatch) : Option (List String) :=
  match sm.repoConfig with
  | some rc => rc.paths
  | none => none

/-- The existence filter one search task submits for its scope
(worker.ts:87-93 feeding `findInstance`, always with limit 1). -/
def scopeFilter (rp : RepoPath) (sm : ScopeMatch) : AqlFilter :=
  findInstanceFilter (getFileNameFromPath rp.path) (getDirectoryPathFromPath rp.path)
    (scopeRepos sm) 1 (scopePaths sm)

/-- Whether a clause restricts the repository. -/
def isRepoCriterion : Criterion → Bool
  | .repoEq _ => true
  | .repoOr _ => true
  | _ => false

/-- Whether the filter carries any repository restriction. -/
def hasRepoCriterion (f : AqlFilter) : Bool :=
  f.criteria.any isRepoCriterion

/-- One item of an AQL result list (`include("repo","path","name")`). -/
structure FoundItem where
  repo : String
  path : String
  name : String
deriving DecidableEq

/-- The outcome of one scope's remote AQL call: a result list, or a thrown
transport error (worker.ts:346-371 rethrows; worker.ts:105-107 catches per
scope). -/
abbrev SearchOutcome := Except Unit (List FoundItem)

/-- Whether an outcome is a non-empty result list. -/
def isHit : SearchOutcome → Bool
  | .ok (_ :: _) => true
  | _ => false

/-- Completion processing of the parallel search jobs: the loop body runs
synchronously up to its first `await`, so every scheduled job issues its
query before any completes; completions are then handled in event-queue
order (`order`, indices into the scope list), and the first non-empty
result list wins the `found` flag (worker.ts:96-104); errors are caught
per scope and count as no match (worker.ts:105-107). -/
def firstHit (oracle : Nat → SearchOutcome) (n : Nat) : List Nat → Option (Nat × FoundItem)
  | [] => none
  | i :: rest =>
      if i < n then
        match oracle i with
        | .ok (item :: _) => some (i, item)
        | _ => firstHit oracle n rest
      else firstHit oracle n rest

/-- worker.ts:101: the found item's full path, with a `"."` directory
collapsed. -/
def fullPathOfFoundItem (item : FoundItem) : String :=
  (if item.path = "." then "" else item.path)
    ++ (if item.path = "." then "" else "/") ++ item.name

/-- worker.ts:102: the message recorded for the first found duplicate. -/
def foundMessageFor (uploadPath jpdUrl : String) (item : FoundItem) : String :=
  "Artifact matching " ++ uploadPath ++ " already exists in JPD: " ++ jpdUrl
    ++ ":" ++ item.repo ++ "/" ++ fullPathOfFoundItem item

/-- The `UploadStatus` values of types.ts the handler uses. -/
inductive UploadStatus where
  | unspecified
  | proceed
  | stop
  | warn
deriving DecidableEq

/-- JS `a || b` on an optional string. -/
def jsOrString (a : Option String) (b : String) : String :=
  match a with
  | some s => if s = "" then b else s
  | none => b

/-- The decision switch (worker.ts:115-134) as a function of the `found`
flag and `config.action`: the `switch` compares `action` against the
string literals `'block'` and `'warn'` and falls to a fail-closed default
that also overrides the message. -/
def decisionOf (found : Bool) (action : Option Json) (foundMessage : Option String)
    (uploadPath : String) : UploadStatus × String :=
  if found then
    let message := jsOrString foundMessage "Duplicate artifact found. Upload will not proceed."
    match action with
    | some (.str s) =>
        if s = "block" then (.stop, message)
        else if s = "warn" then (.warn, message)
        else (.stop, "Unknown action in config. Upload will not proceed.")
    | _ => (.stop, "Unknown action in config. Upload will not proceed.")
  else
    (.proceed, "Artifact " ++ uploadPath ++ " can be uploaded. No duplicates found.")

/-- The `BeforeUploadResponse` fields the handler fills. -/
structure WorkerResponse where
  status : UploadStatus
  message : String
  modifiedRepoPath : Option RepoPath
  headers : List (String × String)
deriving DecidableEq

/-- The URL of the scope a completion index refers to. -/
def jpdUrlAt (scopes : List ScopeMatch) (i : Nat) : String :=
  match scopes[i]? with
  | some sm => sm.jpd.url
  | none => ""

/-- The search phase plus decision switch for a validated upload
(worker.ts:72-134). -/
def searchDecision (config : Config) (oracle : Nat → SearchOutcome) (order : List Nat)
    (rp : RepoPath) : UploadStatus × String :=
  let scopes := resolveScopes config (getDirectoryPathFromPath rp.path)
  match firstHit oracle scopes.length order with
  | some (i, item) =>
      decisionOf true config.action
        (some (foundMessageFor rp.path (jpdUrlAt scopes i) item)) rp.path
  | none => decisionOf false config.action none rp.path

/-- Steps 3-6 of the handler for a validated upload: scope resolution, the
no-scope fast path (worker.ts:61-69), the fan-out search, and response
assembly (worker.ts:148-153). The second component lists the AQL filters
submitted to remote JPDs. -/
def workerValidated (rp : RepoPath) (config : Config) (oracle : Nat → SearchOutcome)
    (order : List Nat) : WorkerResponse × List AqlFilter :=
  if resolveScopes config (getDirectoryPathFromPath rp.path) = [] then
    (⟨.proceed,
      "Artifact path is not in configured search scope for any JPD. Upload allowed.",
      some rp, []⟩, [])
  else
    (⟨(searchDecision config oracle order rp).1, (searchDecision config oracle order rp).2,
      some rp, []⟩,
     (resolveScopes config (getDirectoryPathFromPath rp.path)).map (scopeFilter rp))

/-- The full handler (worker.ts:8-154). `data` is `none` when the payload
or its essential metadata is missing; the validation treats an empty
`key` or `path` as missing (JS truthiness, worker.ts:15-26). The config is
passed already parsed; each scope's remote outcome comes through `oracle`;
`order` is the order completions reach the event queue. -/
def worker (data : Option RepoPath) (config : Config) (oracle : Nat → SearchOutcome)
    (order : List Nat) : WorkerResponse × List AqlFilter :=
  match data with
  | none => (⟨.stop, "Essential data missing in the request payload.", none, []⟩, [])
  | some rp =>
      if rp.key = "" ∨ rp.path = "" then
        (⟨.stop, "Essential data missing in the request payload.", none, []⟩, [])
      else workerValidated rp config oracle order

/-- Modelled from the spec's words, for comparison with `matchesPaths`
(refinement check of C3): the directory equals a root or starts with the
root followed by `"/"`. -/
def specPathMatch (roots : List String) (d : String) : Bool :=
  roots.any fun root => decide (d = root) || jsStartsWith d (root ++ "/")

/-! ## Helper lemmas -/

/-- Splitting on a character that does not occur yields the single whole
segment. -/
theorem splitChars_of_not_mem (sep : Char) (cs : List Char) (h : sep ∉ cs) :
    splitChars sep cs = [cs] := by
  induction cs with
  | nil => rfl
  | cons c cs ih =>
    simp only [List.mem_cons, not_or] at h
    obtain ⟨h₁, h₂⟩ := h
    have hcs : ¬ c = sep := fun hc => h₁ hc.symm
    simp only [splitChars, ih h₂, if_neg hcs]

/-- The empty string starts with no non-empty string. -/
theorem jsStartsWith_empty (p : String) (hp : p ≠ "") : jsStartsWith "" p = false := by
  obtain ⟨cs⟩ := p
  cases cs with
  | nil => exact absurd rfl hp
  | cons c cs => rfl

/-- The boundary-extended root used by `matchesPaths` is never empty, so
the empty directory never matches through the prefix branch. -/
theorem jsStartsWith_empty_rootSlash (r : String) :
    jsStartsWith "" (if jsEndsWith r "/" then r else r ++ "/") = false := by
  split
  next hends =>
    apply jsStartsWith_empty
    intro h
    rw [h] at hends
    exact absurd hends (by decide)
  next =>
    apply jsStartsWith_empty
    intro h
    have hd := congrArg String.data h
    rw [String.data_append] at hd
    simp at hd

/-- An erroring completion contributes nothing: processing it is the same
as processing the rest. -/
theorem firstHit_cons_error (oracle : Nat → SearchOutcome) (n i : Nat) (rest : List Nat)
    (h : oracle i = .error ()) :
    firstHit oracle n (i :: rest) = firstHit oracle n rest := by
  simp only [firstHit, h]
  split <;> rfl

/-- When no in-range outcome is a non-empty result list, no first hit is
recorded. -/
theorem firstHit_eq_none (oracle : Nat → SearchOutcome) (n : Nat) (order : List Nat)
    (h : ∀ i, i < n → isHit (oracle i) = false) :
    firstHit oracle n order = none := by
  induction order with
  | nil => rfl
  | cons j rest ih =>
    simp only [firstHit]
    split
    next hj =>
      cases hoc : oracle j with
      | error e => exact ih
      | ok l =>
        cases l with
        | nil => exact ih
        | cons x xs =>
          have hh := h j hj
          rw [hoc] at hh
          simp [isHit] at hh
    next => exact ih

/-- A processed in-range completion with a non-empty result list forces a
recorded hit. -/
theorem firstHit_ne_none (oracle : Nat → SearchOutcome) (n i : Nat) (order : List Nat)
    (hmem : i ∈ order) (hi : i < n) (hhit : isHit (oracle i) = true) :
    firstHit oracle n order ≠ none := by
  induction order with
  | nil => cases hmem
  | cons j rest ih =>
    rcases List.mem_cons.mp hmem with heq | hmem₂
    · subst heq
      simp only [firstHit, if_pos hi]
      cases hoc : oracle i with
      | error e => rw [hoc] at hhit; simp [isHit] at hhit
      | ok l =>
        cases l with
        | nil => rw [hoc] at hhit; simp [isHit] at hhit
        | cons x xs => simp
    · simp only [firstHit]
      split
      · cases hoc : oracle j with
        | error e => exact ih hmem₂
        | ok l =>
          cases l with
          | nil => exact ih hmem₂
          | cons x xs => simp
      · exact ih hmem₂

/-- With a duplicate found, the decision switch never yields PROCEED. -/
theorem decisionOf_true_ne_proceed (action : Option Json) (fm : Option String) (up : String) :
    (decisionOf true action fm up).1 ≠ UploadStatus.proceed := by
  rcases action with _ | j
  · simp [decisionOf]
  · cases j
    case str s =>
      simp [decisionOf]
      split_ifs <;> simp
    all_goals simp [decisionOf]

/-- A validated upload reaches `workerValidated`. -/
theorem worker_validated_of (rp : RepoPath) (config : Config) (oracle : Nat → SearchOutcome)
    (order : List Nat) (hk : rp.key ≠ "") (hp : rp.path ≠ "") :
    worker (some rp) config oracle order = workerValidated rp config oracle order := by
  simp [worker, hk, hp]

/-! ## Claim theorems -/

/-- C1 counterexample: for a ScopeMatch with no RepoScope, the claim says
the filter restricts the repository to the upload's own repoKey
(`"libs-local"`); the filter the code builds carries no repository
criterion at all — it searches all repositories of the target. -/
theorem C1_counterexample :
    scopeFilter ⟨"libs-local", "a/b.txt"⟩ ⟨⟨"jpd.example", []⟩, none⟩
      = ⟨[Criterion.pathEq "a", Criterion.nameMatch "b.txt"], some 1⟩
    ∧ hasRepoCriterion (scopeFilter ⟨"libs-local", "a/b.txt"⟩ ⟨⟨"jpd.example", []⟩, none⟩)
        = false :=
  ⟨rfl, rfl⟩

/-- C1 (amended): for every ScopeMatch that carries no RepoScope, the
existence filter the searcher builds carries NO repository restriction
(all repositories of the target are searched), restricts the path to the
upload's own directory (`"."` when it is empty), matches the upload's
file name (falling back to `"*"` when empty), and requests at most 1
result. -/
theorem C1_unscoped_filter (rp : RepoPath) (sm : ScopeMatch)
    (h : sm.repoConfig = none) :
    scopeFilter rp sm =
      ⟨Criterion.pathEq
          (if getDirectoryPathFromPath rp.path = "" then "."
           else getDirectoryPathFromPath rp.path)
        :: nameCriteria (getFileNameFromPath rp.path),
       some 1⟩
    ∧ hasRepoCriterion (scopeFilter rp sm) = false := by
  obtain ⟨jpd, rcOpt⟩ := sm
  simp only at h
  subst h
  refine ⟨rfl, ?_⟩
  simp only [hasRepoCriterion, scopeFilter, findInstanceFilter, buildCriteria, repoCriteria,
    pathCriteria, nameCriteria, scopeRepos, scopePaths]
  split_ifs <;> rfl

/-- C1 witness: the amended theorem at a concrete root-less scope. -/
theorem C1_unscoped_filter_witness :
    scopeFilter ⟨"libs-local", "pkg/a.txt"⟩ ⟨⟨"jpd.example", []⟩, none⟩
      = ⟨[Criterion.pathEq "pkg", Criterion.nameMatch "a.txt"], some 1⟩
    ∧ hasRepoCriterion (scopeFilter ⟨"libs-local", "pkg/a.txt"⟩ ⟨⟨"jpd.example", []⟩, none⟩)
        = false := by
  have h := C1_unscoped_filter ⟨"libs-local", "pkg/a.txt"⟩ ⟨⟨"jpd.example", []⟩, none⟩ rfl
  refine ⟨?_, h.2⟩
  rw [h.1]
  rfl

/-- C2: behavior of the `Config` constructor at the failing input: a
target entry that has a URL but no `repos` property is dropped entirely
(first conjunct), while the same entry with an explicit empty `repos`
array is retained (second conjunct). The worker's own README states that
a target whose repos are "empty or omitted" searches all repos. -/
theorem C2_repos_absent_dropped :
    (parseConfig (.parsed (.obj [("jpds", .arr [.obj [("url", .str "jpd.example")]]),
        ("action", .str "block")]))).jpds = []
    ∧ (parseConfig (.parsed (.obj [("jpds",
          .arr [.obj [("url", .str "jpd.example"), ("repos", .arr [])]]),
        ("action", .str "block")]))).jpds = [⟨.str "jpd.example", []⟩] :=
  ⟨rfl, rfl⟩

/-- C3 counterexample: for the root `"foo/"` (ending in a slash) and
directory `"foo/bar"`, the code matches (the root itself is used as the
prefix), while the claim's rule — equality or the root followed by `"/"`,
i.e. `"foo//"` — does not. -/
theorem C3_counterexample :
    matchesPaths ["foo/"] "foo/bar" = true
    ∧ specPathMatch ["foo/"] "foo/bar" = false :=
  ⟨rfl, rfl⟩

/-- C3 (amended): a RepoScope's pathRoots match an upload directory `d`
iff `d` equals some root or `d` starts with the root followed by `"/"` —
except that a root already ending in `"/"` is used as the prefix
unchanged; in particular root `"immutable"` matches `"immutable/sub"` but
not `"immutable2"`. -/
theorem C3_boundary_safe_match (roots : List String) (d : String) :
    (matchesPaths roots d = true ↔
      ∃ r ∈ roots, d = r ∨
        jsStartsWith d (if jsEndsWith r "/" then r else r ++ "/") = true)
    ∧ matchesPaths ["immutable"] "immutable/sub" = true
    ∧ matchesPaths ["immutable"] "immutable2" = false := by
  refine ⟨?_, rfl, rfl⟩
  simp [matchesPaths]

/-- C4: the policy decision is a total function of (found, action):
found = false yields PROCEED for every action; found = true yields STOP
for `'block'`, WARN for `'warn'`, and for any other or unset action STOP
with the message overridden to flag the misconfiguration. -/
theorem C4_policy_total (action : Option Json) (fm : Option String) (up : String) :
    (decisionOf false action fm up).1 = UploadStatus.proceed
    ∧ (decisionOf true (some (.str "block")) fm up).1 = UploadStatus.stop
    ∧ (decisionOf true (some (.str "warn")) fm up).1 = UploadStatus.warn
    ∧ (∀ s, s ≠ "block" → s ≠ "warn" →
        decisionOf true (some (.str s)) fm up
          = (.stop, "Unknown action in config. Upload will not proceed."))
    ∧ (∀ j, (∀ s, j ≠ Json.str s) →
        decisionOf true (some j) fm up
          = (.stop, "Unknown action in config. Upload will not proceed."))
    ∧ decisionOf true none fm up
        = (.stop, "Unknown action in config. Upload will not proceed.") := by
  refine ⟨rfl, rfl, rfl, ?_, ?_, rfl⟩
  · intro s h₁ h₂
    simp [decisionOf, h₁, h₂]
  · intro j hj
    cases j
    case str s => exact absurd rfl (hj s)
    all_goals rfl

/-- C4 witness: the fail-closed default at a concrete unknown action. -/
theorem C4_policy_total_witness :
    decisionOf true (some (.str "bogus")) none "a/b.txt"
      = (.stop, "Unknown action in config. Upload will not proceed.") :=
  (C4_policy_total (some (.str "bogus")) none "a/b.txt").2.2.2.1 "bogus"
    (by decide) (by decide)

/-- C5: for every upload whose directory matches no configured
target/repo/path (the resolved ScopeMatch sequence is empty), the
decision is PROCEED and zero remote existence queries are issued. -/
theorem C5_no_scope_fast_path (rp : RepoPath) (config : Config)
    (oracle : Nat → SearchOutcome) (order : List Nat)
    (hk : rp.key ≠ "") (hp : rp.path ≠ "")
    (hscope : resolveScopes config (getDirectoryPathFromPath rp.path) = []) :
    (worker (some rp) config oracle order).1.status = UploadStatus.proceed
    ∧ (worker (some rp) config oracle order).2 = [] := by
  rw [worker_validated_of rp config oracle order hk hp]
  unfold workerValidated
  rw [if_pos hscope]
  exact ⟨rfl, rfl⟩

/-- C5 witness: the spec's own example — config scoped to repo `"r"` under
root `"immutable"`, upload `other:anything/file.txt` — resolves no scope,
proceeds, issues no query. -/
theorem C5_no_scope_fast_path_witness :
    (worker (some ⟨"other", "anything/file.txt"⟩)
        ⟨[⟨"a.example", [⟨"r", some ["immutable"]⟩]⟩], some (Json.str "block")⟩
        (fun _ => Except.error ()) []).1.status = UploadStatus.proceed
    ∧ (worker (some ⟨"other", "anything/file.txt"⟩)
        ⟨[⟨"a.example", [⟨"r", some ["immutable"]⟩]⟩], some (Json.str "block")⟩
        (fun _ => Except.error ()) []).2 = [] :=
  C5_no_scope_fast_path ⟨"other", "anything/file.txt"⟩
    ⟨[⟨"a.example", [⟨"r", some ["immutable"]⟩]⟩], some (Json.str "block")⟩
    (fun _ => Except.error ()) [] (by decide) (by decide) rfl

/-- C6: empty or unparsable raw configuration text yields the default
config — empty target list, action `'warn'` — and the failure is
recovered locally (`parseConfig` is total, no error escapes). -/
theorem C6_parse_fail_open :
    parseConfig RawConfigText.empty = ⟨[], some (Json.str "warn")⟩
    ∧ parseConfig RawConfigText.unparsable = ⟨[], some (Json.str "warn")⟩ :=
  ⟨rfl, rfl⟩

/-- C7: an erroring scope is counted as "no match" (first conjunct: its
completion contributes nothing); errors abort neither the other scopes'
queries (third conjunct: every resolved scope's filter is submitted
regardless of outcomes) nor the overall search; if every relevant scope's
query errors, the decision is PROCEED (second conjunct). -/
theorem C7_search_error_fail_open (rp : RepoPath) (config : Config)
    (oracle : Nat → SearchOutcome) (order : List Nat)
    (hk : rp.key ≠ "") (hp : rp.path ≠ "") :
    (∀ i rest, oracle i = .error () →
        firstHit oracle (resolveScopes config (getDirectoryPathFromPath rp.path)).length
            (i :: rest)
          = firstHit oracle (resolveScopes config (getDirectoryPathFromPath rp.path)).length
            rest)
    ∧ ((∀ i, i < (resolveScopes config (getDirectoryPathFromPath rp.path)).length →
          oracle i = .error ()) →
        (worker (some rp) config oracle order).1.status = UploadStatus.proceed)
    ∧ (resolveScopes config (getDirectoryPathFromPath rp.path) ≠ [] →
        (worker (some rp) config oracle order).2
          = (resolveScopes config (getDirectoryPathFromPath rp.path)).map (scopeFilter rp)) := by
  refine ⟨?_, ?_, ?_⟩
  · intro i rest h
    exact firstHit_cons_error oracle _ i rest h
  · intro herr
    rw [worker_validated_of rp config oracle order hk hp]
    unfold workerValidated
    split
    · rfl
    · have hfh : firstHit oracle
          (resolveScopes config (getDirectoryPathFromPath rp.path)).length order = none :=
        firstHit_eq_none oracle _ order (fun i hi => by rw [herr i hi]; rfl)
      simp only [searchDecision, hfh]
      rfl
  · intro hne
    rw [worker_validated_of rp config oracle order hk hp]
    unfold workerValidated
    rw [if_neg hne]

/-- C7 witness: one in-scope JPD whose query errors — the upload
proceeds. -/
theorem C7_search_error_fail_open_witness :
    (worker (some ⟨"r", "d/f.txt"⟩) ⟨[⟨"jpd.example", []⟩], some (Json.str "block")⟩
        (fun _ => Except.error ()) [0]).1.status = UploadStatus.proceed := by
  have h := C7_search_error_fail_open ⟨"r", "d/f.txt"⟩
      ⟨[⟨"jpd.example", []⟩], some (Json.str "block")⟩
      (fun _ => Except.error ()) [0] (by decide) (by decide)
  exact h.2.1 (fun i _ => rfl)

/-- C8: for every configuration and every assignment of remote outcomes,
if at least one relevant scope's existence query returns a non-empty
result list, the final decision status is never PROCEED (here `order`,
the completion-processing order, ranges over any permutation of the
scheduled tasks). -/
theorem C8_match_never_proceed (rp : RepoPath) (config : Config)
    (oracle : Nat → SearchOutcome) (order : List Nat)
    (hk : rp.key ≠ "") (hp : rp.path ≠ "")
    (hperm : List.Perm order
      (List.range (resolveScopes config (getDirectoryPathFromPath rp.path)).length))
    (i : Nat)
    (hi : i < (resolveScopes config (getDirectoryPathFromPath rp.path)).length)
    (items : List FoundItem) (hne : items ≠ [])
    (hoc : oracle i = .ok items) :
    (worker (some rp) config oracle order).1.status ≠ UploadStatus.proceed := by
  rw [worker_validated_of rp config oracle order hk hp]
  unfold workerValidated
  split
  next hsc =>
    rw [hsc] at hi
    simp at hi
  next hsc =>
    have hmem : i ∈ order := hperm.mem_iff.mpr (List.mem_range.mpr hi)
    have hhit : isHit (oracle i) = true := by
      rw [hoc]
      cases items with
      | nil => exact absurd rfl hne
      | cons x xs => rfl
    have hfh := firstHit_ne_none oracle
      (resolveScopes config (getDirectoryPathFromPath rp.path)).length i order hmem hi hhit
    cases hres : firstHit oracle
        (resolveScopes config (getDirectoryPathFromPath rp.path)).length order with
    | none => exact absurd hres hfh
    | some pr =>
      obtain ⟨k, itm⟩ := pr
      simp only [searchDecision, hres]
      exact decisionOf_true_ne_proceed config.action _ rp.path

/-- C8 witness: one in-scope JPD reporting a duplicate — the upload never
proceeds. -/
theorem C8_match_never_proceed_witness :
    (worker (some ⟨"r", "d/f.txt"⟩) ⟨[⟨"jpd.example", []⟩], some (Json.str "block")⟩
        (fun _ => Except.ok [⟨"repo1", "d", "f.txt"⟩]) [0]).1.status
      ≠ UploadStatus.proceed :=
  C8_match_never_proceed ⟨"r", "d/f.txt"⟩ ⟨[⟨"jpd.example", []⟩], some (Json.str "block")⟩
    (fun _ => Except.ok [⟨"repo1", "d", "f.txt"⟩]) [0] (by decide) (by decide) (by decide)
    0 (by decide) [⟨"repo1", "d", "f.txt"⟩] (by decide) rfl

/-- C9 counterexample: the validation-failure response (here: empty repo
key) does NOT carry the upload's repository/path identity — it returns
`modifiedRepoPath: undefined` — contradicting the claim that every
response, including the validation-failure outcome, echoes the identity
unchanged. -/
theorem C9_counterexample :
    (worker (some ⟨"", "a/b.txt"⟩) ⟨[], some (Json.str "warn")⟩
        (fun _ => Except.error ()) []).1.modifiedRepoPath = none :=
  rfl

/-- C9 (amended): every response carries an empty header map; every
response to a validated upload echoes the upload's repository/path
identity unchanged; the validation-failure responses leave the identity
unset (`modifiedRepoPath = undefined`). -/
theorem C9_response_frame (data : Option RepoPath) (config : Config)
    (oracle : Nat → SearchOutcome) (order : List Nat) :
    (worker data config oracle order).1.headers = []
    ∧ (∀ rp, data = some rp → rp.key ≠ "" → rp.path ≠ "" →
        (worker data config oracle order).1.modifiedRepoPath = some rp)
    ∧ (∀ rp, data = some rp → rp.key = "" ∨ rp.path = "" →
        (worker data config oracle order).1.modifiedRepoPath = none)
    ∧ (data = none → (worker data config oracle order).1.modifiedRepoPath = none) := by
  refine ⟨?_, ?_, ?_, ?_⟩
  · cases data with
    | none => rfl
    | some rp =>
      simp only [worker]
      split
      · rfl
      · unfold workerValidated
        split
        · rfl
        · rfl
  · rintro rp rfl hk hp
    rw [worker_validated_of rp config oracle order hk hp]
    unfold workerValidated
    split
    · rfl
    · rfl
  · rintro rp rfl hor
    simp only [worker]
    rw [if_pos hor]
  · rintro rfl
    rfl

/-- C9 witness: a validated upload's response echoes its identity with
empty headers. -/
theorem C9_response_frame_witness :
    (worker (some ⟨"r", "d/f.txt"⟩) ⟨[], some (Json.str "warn")⟩
        (fun _ => Except.error ()) []).1.modifiedRepoPath = some ⟨"r", "d/f.txt"⟩
    ∧ (worker (some ⟨"r", "d/f.txt"⟩) ⟨[], some (Json.str "warn")⟩
        (fun _ => Except.error ()) []).1.headers = [] := by
  have h := C9_response_frame (some ⟨"r", "d/f.txt"⟩) ⟨[], some (Json.str "warn")⟩
      (fun _ => Except.error ()) []
  exact ⟨h.2.1 ⟨"r", "d/f.txt"⟩ rfl (by decide) (by decide), h.1⟩

/-- C10 counterexample: the pathRoots list `[""]` is non-empty, yet it
matches the root-level upload `"file.txt"` (whose directory is `""`),
contradicting the claim that no RepoScope with non-empty pathRoots ever
matches a root-level upload. -/
theorem C10_counterexample :
    getDirectoryPathFromPath "file.txt" = ""
    ∧ ([""] : List String) ≠ []
    ∧ matchesPaths [""] (getDirectoryPathFromPath "file.txt") = true :=
  ⟨rfl, by decide, rfl⟩

/-- C10 (amended): a path with no `/` separator yields directory `""`;
a RepoScope's pathRoots match a root-level upload iff some root is the
empty string (so roots that are all non-empty never match one); and a
root-level upload searched without explicit pathRoots gets the literal
`"."` as its path criterion. -/
theorem C10_root_level_uploads :
    (∀ path : String, '/' ∉ path.data → getDirectoryPathFromPath path = "")
    ∧ (∀ roots : List String, (matchesPaths roots "" = true ↔ "" ∈ roots))
    ∧ (∀ (rp : RepoPath) (sm : ScopeMatch),
        getDirectoryPathFromPath rp.path = "" →
        scopePaths sm = none ∨ scopePaths sm = some [] →
        Criterion.pathEq "." ∈ (scopeFilter rp sm).criteria) := by
  refine ⟨?_, ?_, ?_⟩
  · intro path h
    have hsp : jsSplitSlash path = [path] := by
      unfold jsSplitSlash
      rw [splitChars_of_not_mem _ _ h]
      rfl
    simp [getDirectoryPathFromPath, hsp]
  · intro roots
    simp only [matchesPaths, List.any_eq_true, Bool.or_eq_true, decide_eq_true_eq,
      jsStartsWith_empty_rootSlash, Bool.false_eq_true, or_false]
    constructor
    · rintro ⟨r, hr, rfl⟩
      exact hr
    · intro h
      exact ⟨"", h, rfl⟩
  · intro rp sm hdir hps
    rcases hps with h | h <;>
      simp [scopeFilter, findInstanceFilter, buildCriteria, pathCriteria, h, hdir]

end UploadBlocker
